import Mathlib

/-!
Verification development for the cms-psinv dashboard (articles and blog
editors plus the blog list view).  The definitions below are a shallow
embedding of the TypeScript source: strings are Lean strings, the
Firestore store is an association list from document keys to documents,
a document is a function from field names to optional values, and each
event handler of the React pages becomes a pure function from the
previous form state to the next one.
-/

namespace Cms

/-! ## Character-level model of the JavaScript primitives used by slugify -/

/-- Code points matched by the JavaScript regex class backslash-s
(whitespace), which is also the set trimmed by String.prototype.trim. -/
def isJsWhitespace (c : Char) : Bool :=
  c.toNat == 9 || c.toNat == 10 || c.toNat == 11 || c.toNat == 12 ||
  c.toNat == 13 || c.toNat == 32 || c.toNat == 160 || c.toNat == 5760 ||
  (decide (8192 ≤ c.toNat) && decide (c.toNat ≤ 8202)) ||
  c.toNat == 8232 || c.toNat == 8233 || c.toNat == 8239 ||
  c.toNat == 8287 || c.toNat == 12288 || c.toNat == 65279

/-- Code points matched by the JavaScript regex class backslash-w:
ASCII letters, digits and underscore. -/
def isWordChar (c : Char) : Bool :=
  (decide (65 ≤ c.toNat) && decide (c.toNat ≤ 90)) ||
  (decide (97 ≤ c.toNat) && decide (c.toNat ≤ 122)) ||
  (decide (48 ≤ c.toNat) && decide (c.toNat ≤ 57)) ||
  c.toNat == 95

/-- Characters kept by the replace of the class excluding word chars and
hyphen with the empty string: word characters and the hyphen (45). -/
def keepChar (c : Char) : Bool :=
  isWordChar c || c.toNat == 45

/-- Characters that can appear in a slugify result: lowercase ASCII
letters, digits, underscore and hyphen. -/
def isSlugChar (c : Char) : Bool :=
  (decide (97 ≤ c.toNat) && decide (c.toNat ≤ 122)) ||
  (decide (48 ≤ c.toNat) && decide (c.toNat ≤ 57)) ||
  c.toNat == 95 || c.toNat == 45

/-- The ASCII fragment of String.prototype.toLowerCase: map the code
points 65-90 to 97-122 and leave everything else unchanged. -/
def toLowerChar (c : Char) : Char :=
  if h : 65 ≤ c.toNat ∧ c.toNat ≤ 90 then
    ⟨c.val + 32, by
      have h32 : (c.val + 32).toNat = c.toNat + 32 := by
        rw [UInt32.toNat_add]
        exact Nat.mod_eq_of_lt (by
          show c.val.toNat + (32 : UInt32).toNat < UInt32.size
          have e1 : (32 : UInt32).toNat = 32 := rfl
          have e2 : UInt32.size = 4294967296 := rfl
          have e3 : c.val.toNat = c.toNat := rfl
          have h90 : c.toNat ≤ 90 := h.2
          omega)
      show (c.val + 32).toNat.isValidChar
      rw [h32]
      exact Or.inl (by omega)⟩
  else c

/-- String.prototype.trim : drop whitespace from both ends. -/
def jsTrim (l : List Char) : List Char :=
  ((l.dropWhile isJsWhitespace).reverse.dropWhile isJsWhitespace).reverse

/-- The global replace of one-or-more whitespace by a hyphen, written as
a scan that remembers whether the previous character was part of a
whitespace run. -/
def wsRun (prevWs : Bool) : List Char → List Char
  | [] => []
  | c :: cs =>
    if isJsWhitespace c then
      if prevWs then wsRun true cs else '-' :: wsRun true cs
    else c :: wsRun false cs

/-- The global replace of two-or-more hyphens by a single hyphen,
written as a scan remembering whether the previous character was a
hyphen. -/
def hyRun (prevHy : Bool) : List Char → List Char
  | [] => []
  | c :: cs =>
    if c.toNat = 45 then
      if prevHy then hyRun true cs else c :: hyRun true cs
    else c :: hyRun false cs

/-- slugify on the character list: toLowerCase, trim, whitespace runs to
hyphen, strip characters outside word chars and hyphen, collapse hyphen
runs.  Mirrors the slugify helper of both editor pages. -/
def slugifyL (l : List Char) : List Char :=
  hyRun false ((wsRun false (jsTrim (l.map toLowerChar))).filter keepChar)

/-- The slugify helper shared (textually duplicated) by the articles and
blog editors. -/
def slugify (s : String) : String :=
  ⟨slugifyL s.data⟩

/-- True when no two consecutive characters are both hyphens. -/
def noDoubleHyphen : List Char → Bool
  | a :: b :: rest =>
    (!(a.toNat == 45 && b.toNat == 45)) && noDoubleHyphen (b :: rest)
  | _ => true

/-- True when the list does not start with a hyphen. -/
def headNotHy : List Char → Bool
  | [] => true
  | c :: _ => !(c.toNat == 45)

/-! ## Lemmas about the slugify pipeline -/

theorem toLowerChar_toNat_of_upper (c : Char) (h : 65 ≤ c.toNat ∧ c.toNat ≤ 90) :
    (toLowerChar c).toNat = c.toNat + 32 := by
  rw [toLowerChar, dif_pos h]
  show (c.val + 32).toNat = c.toNat + 32
  rw [UInt32.toNat_add, show (32 : UInt32).toNat = 32 from rfl,
    show UInt32.size = 4294967296 from rfl]
  have e3 : c.val.toNat = c.toNat := rfl
  have h90 : c.toNat ≤ 90 := h.2
  omega

theorem toLowerChar_of_not_upper (c : Char) (h : ¬(65 ≤ c.toNat ∧ c.toNat ≤ 90)) :
    toLowerChar c = c := by
  rw [toLowerChar, dif_neg h]

theorem toLowerChar_not_upper (c : Char) :
    ¬(65 ≤ (toLowerChar c).toNat ∧ (toLowerChar c).toNat ≤ 90) := by
  by_cases h : 65 ≤ c.toNat ∧ c.toNat ≤ 90
  · rw [toLowerChar_toNat_of_upper c h]
    omega
  · rw [toLowerChar_of_not_upper c h]
    exact h

theorem dropWhile_of_forall_not {p : Char → Bool} {l : List Char}
    (h : ∀ c ∈ l, p c = false) : l.dropWhile p = l := by
  cases l with
  | nil => rfl
  | cons a cs =>
    rw [List.dropWhile_cons, h a (List.mem_cons_self a cs)]
    simp

theorem mem_jsTrim {c : Char} {l : List Char} (h : c ∈ jsTrim l) : c ∈ l := by
  rw [jsTrim, List.mem_reverse] at h
  have h2 := (List.dropWhile_sublist isJsWhitespace).mem h
  rw [List.mem_reverse] at h2
  exact (List.dropWhile_sublist isJsWhitespace).mem h2

theorem jsTrim_of_no_ws {l : List Char}
    (h : ∀ c ∈ l, isJsWhitespace c = false) : jsTrim l = l := by
  rw [jsTrim, dropWhile_of_forall_not h,
    dropWhile_of_forall_not (fun c hc => h c (List.mem_reverse.mp hc)),
    List.reverse_reverse]

theorem mem_wsRun {l : List Char} : ∀ {b : Bool} {c : Char}, c ∈ wsRun b l →
    c.toNat = 45 ∨ (c ∈ l ∧ isJsWhitespace c = false) := by
  induction l with
  | nil => intro b c h; simp [wsRun] at h
  | cons a cs ih =>
    intro b c h
    have tail : c ∈ wsRun true cs →
        c.toNat = 45 ∨ (c ∈ a :: cs ∧ isJsWhitespace c = false) := fun h2 =>
      (ih h2).imp id (fun p => ⟨List.mem_cons_of_mem a p.1, p.2⟩)
    have tailf : c ∈ wsRun false cs →
        c.toNat = 45 ∨ (c ∈ a :: cs ∧ isJsWhitespace c = false) := fun h2 =>
      (ih h2).imp id (fun p => ⟨List.mem_cons_of_mem a p.1, p.2⟩)
    by_cases hw : isJsWhitespace a = true
    · cases b with
      | true =>
        rw [wsRun, if_pos hw, if_pos rfl] at h
        exact tail h
      | false =>
        rw [wsRun, if_pos hw, if_neg (by simp)] at h
        rcases List.mem_cons.mp h with rfl | h2
        · exact Or.inl rfl
        · exact tail h2
    · rw [wsRun, if_neg hw] at h
      rcases List.mem_cons.mp h with rfl | h2
      · exact Or.inr ⟨List.mem_cons_self _ _, Bool.not_eq_true _ ▸ hw⟩
      · exact tailf h2

theorem wsRun_of_no_ws {l : List Char}
    (h : ∀ c ∈ l, isJsWhitespace c = false) : ∀ b, wsRun b l = l := by
  induction l with
  | nil => intro b; rfl
  | cons a cs ih =>
    intro b
    have ha : isJsWhitespace a = false := h a (List.mem_cons_self a cs)
    rw [wsRun, if_neg (by simp [ha]),
      ih (fun c hc => h c (List.mem_cons_of_mem a hc))]

theorem mem_hyRun {l : List Char} : ∀ {b : Bool} {c : Char}, c ∈ hyRun b l → c ∈ l := by
  induction l with
  | nil => intro b c h; simp [hyRun] at h
  | cons a cs ih =>
    intro b c h
    by_cases h45 : a.toNat = 45
    · cases b with
      | true =>
        rw [hyRun, if_pos h45, if_pos rfl] at h
        exact List.mem_cons_of_mem a (ih h)
      | false =>
        rw [hyRun, if_pos h45, if_neg (by simp)] at h
        rcases List.mem_cons.mp h with rfl | h2
        · exact List.mem_cons_self _ _
        · exact List.mem_cons_of_mem _ (ih h2)
    · rw [hyRun, if_neg h45] at h
      rcases List.mem_cons.mp h with rfl | h2
      · exact List.mem_cons_self _ _
      · exact List.mem_cons_of_mem _ (ih h2)

theorem noDoubleHyphen_cons_of_head {c : Char} {l : List Char}
    (hh : headNotHy l = true) (hl : noDoubleHyphen l = true) :
    noDoubleHyphen (c :: l) = true := by
  cases l with
  | nil => rfl
  | cons b rest =>
    rw [headNotHy] at hh
    rw [noDoubleHyphen]
    simp only [Bool.and_eq_true, Bool.not_eq_true']
    exact ⟨by simp only [Bool.not_eq_true'] at hh; simp [hh], hl⟩

theorem noDoubleHyphen_cons_of_not_hy {c : Char} {l : List Char}
    (hc : ¬c.toNat = 45) (hl : noDoubleHyphen l = true) :
    noDoubleHyphen (c :: l) = true := by
  cases l with
  | nil => rfl
  | cons b rest =>
    rw [noDoubleHyphen]
    simp only [Bool.and_eq_true, Bool.not_eq_true']
    exact ⟨by simp [hc], hl⟩

theorem noDoubleHyphen_tail {c : Char} {l : List Char}
    (h : noDoubleHyphen (c :: l) = true) : noDoubleHyphen l = true := by
  cases l with
  | nil => rfl
  | cons b rest =>
    rw [noDoubleHyphen, Bool.and_eq_true] at h
    exact h.2

theorem noDoubleHyphen_head {c : Char} {l : List Char} (hc : c.toNat = 45)
    (h : noDoubleHyphen (c :: l) = true) : headNotHy l = true := by
  cases l with
  | nil => rfl
  | cons b rest =>
    rw [noDoubleHyphen, Bool.and_eq_true] at h
    have := h.1
    rw [headNotHy]
    simp only [Bool.not_eq_true', Bool.and_eq_false_iff, beq_eq_false_iff_ne] at this ⊢
    rcases this with h1 | h2
    · exact absurd hc h1
    · exact h2

theorem hyRun_spec (l : List Char) :
    noDoubleHyphen (hyRun false l) = true ∧ noDoubleHyphen (hyRun true l) = true ∧
      headNotHy (hyRun true l) = true := by
  induction l with
  | nil => exact ⟨rfl, rfl, rfl⟩
  | cons a cs ih =>
    obtain ⟨ihf, iht, ihh⟩ := ih
    by_cases h45 : a.toNat = 45
    · refine ⟨?_, ?_, ?_⟩
      · rw [hyRun, if_pos h45, if_neg (by simp)]
        exact noDoubleHyphen_cons_of_head ihh iht
      · rw [hyRun, if_pos h45, if_pos rfl]
        exact iht
      · rw [hyRun, if_pos h45, if_pos rfl]
        exact ihh
    · refine ⟨?_, ?_, ?_⟩
      · rw [hyRun, if_neg h45]
        exact noDoubleHyphen_cons_of_not_hy h45 ihf
      · rw [hyRun, if_neg h45]
        exact noDoubleHyphen_cons_of_not_hy h45 ihf
      · rw [hyRun, if_neg h45, headNotHy]
        simp [h45]

theorem hyRun_id (l : List Char) (h : noDoubleHyphen l = true) :
    hyRun false l = l ∧ (headNotHy l = true → hyRun true l = l) := by
  induction l with
  | nil => exact ⟨rfl, fun _ => rfl⟩
  | cons a cs ih =>
    by_cases h45 : a.toNat = 45
    · have hh : headNotHy cs = true := noDoubleHyphen_head h45 h
      have ht : noDoubleHyphen cs = true := noDoubleHyphen_tail h
      have hcs : hyRun true cs = cs := (ih ht).2 hh
      constructor
      · rw [hyRun, if_pos h45, if_neg (by simp), hcs]
      · intro hhead
        rw [headNotHy] at hhead
        simp only [Bool.not_eq_true', beq_eq_false_iff_ne] at hhead
        exact absurd h45 hhead
    · have ht : noDoubleHyphen cs = true := noDoubleHyphen_tail h
      have hcs : hyRun false cs = cs := (ih ht).1
      constructor
      · rw [hyRun, if_neg h45, hcs]
      · intro _
        rw [hyRun, if_neg h45, hcs]

theorem map_id_of {f : Char → Char} {l : List Char}
    (h : ∀ c ∈ l, f c = c) : l.map f = l := by
  induction l with
  | nil => rfl
  | cons a cs ih =>
    rw [List.map_cons, h a (List.mem_cons_self a cs),
      ih (fun c hc => h c (List.mem_cons_of_mem a hc))]

theorem isSlugChar_not_ws {c : Char} (h : isSlugChar c = true) :
    isJsWhitespace c = false := by
  rw [isSlugChar] at h
  rw [isJsWhitespace]
  simp only [Bool.or_eq_true, Bool.and_eq_true, decide_eq_true_eq, beq_iff_eq] at h
  simp only [Bool.or_eq_false_iff, Bool.and_eq_false_iff, beq_eq_false_iff_ne,
    decide_eq_false_iff_not]
  omega

theorem isSlugChar_keep {c : Char} (h : isSlugChar c = true) : keepChar c = true := by
  rw [isSlugChar] at h
  rw [keepChar, isWordChar]
  simp only [Bool.or_eq_true, Bool.and_eq_true, decide_eq_true_eq, beq_iff_eq] at h ⊢
  omega

theorem isSlugChar_not_upper {c : Char} (h : isSlugChar c = true) :
    ¬(65 ≤ c.toNat ∧ c.toNat ≤ 90) := by
  rw [isSlugChar] at h
  simp only [Bool.or_eq_true, Bool.and_eq_true, decide_eq_true_eq, beq_iff_eq] at h
  omega

theorem isSlugChar_of_keep_not_upper {c : Char} (hk : keepChar c = true)
    (hu : ¬(65 ≤ c.toNat ∧ c.toNat ≤ 90)) : isSlugChar c = true := by
  rw [keepChar, isWordChar] at hk
  rw [isSlugChar]
  simp only [Bool.or_eq_true, Bool.and_eq_true, decide_eq_true_eq, beq_iff_eq] at hk ⊢
  omega

theorem hyphen_isSlugChar {c : Char} (h : c.toNat = 45) : isSlugChar c = true := by
  rw [isSlugChar]
  simp only [Bool.or_eq_true, Bool.and_eq_true, decide_eq_true_eq, beq_iff_eq]
  omega

/-- Every character of a slugify result is a lowercase word character or
a hyphen. -/
theorem slugifyL_chars (l : List Char) : ∀ c ∈ slugifyL l, isSlugChar c = true := by
  intro c hc
  have h1 : c ∈ (wsRun false (jsTrim (l.map toLowerChar))).filter keepChar :=
    mem_hyRun hc
  have hk : keepChar c = true := List.of_mem_filter h1
  have h2 : c ∈ wsRun false (jsTrim (l.map toLowerChar)) := List.mem_of_mem_filter h1
  rcases mem_wsRun h2 with h45 | ⟨h3, _⟩
  · exact hyphen_isSlugChar h45
  · have h4 : c ∈ l.map toLowerChar := mem_jsTrim h3
    rcases List.mem_map.mp h4 with ⟨c0, _, rfl⟩
    exact isSlugChar_of_keep_not_upper hk (toLowerChar_not_upper c0)

/-- A slugify result never contains two consecutive hyphens. -/
theorem slugifyL_noDouble (l : List Char) : noDoubleHyphen (slugifyL l) = true :=
  (hyRun_spec _).1

/-- slugify is the identity on lists made of slug characters with no
consecutive hyphens. -/
theorem slugifyL_fixed (l : List Char) (hs : ∀ c ∈ l, isSlugChar c = true)
    (hd : noDoubleHyphen l = true) : slugifyL l = l := by
  have hnw : ∀ c ∈ l, isJsWhitespace c = false :=
    fun c hc => isSlugChar_not_ws (hs c hc)
  have e1 : l.map toLowerChar = l :=
    map_id_of (fun c hc => toLowerChar_of_not_upper c (isSlugChar_not_upper (hs c hc)))
  have e2 : jsTrim l = l := jsTrim_of_no_ws hnw
  have e3 : wsRun false l = l := wsRun_of_no_ws hnw false
  have e4 : l.filter keepChar = l :=
    List.filter_eq_self.mpr (fun c hc => isSlugChar_keep (hs c hc))
  rw [slugifyL, e1, e2, e3, e4]
  exact (hyRun_id l hd).1

/-- slugify is idempotent. -/
theorem slugifyL_idem (l : List Char) : slugifyL (slugifyL l) = slugifyL l :=
  slugifyL_fixed _ (slugifyL_chars l) (slugifyL_noDouble l)

theorem slugify_data (s : String) : (slugify s).data = slugifyL s.data := rfl

theorem slugify_idem (s : String) : slugify (slugify s) = slugify s := by
  rw [slugify, slugify]
  exact congrArg String.mk (slugifyL_idem s.data)

/-! ## Data model of the two editor pages -/

/-- The fixed locale set of the articles editor (LANGUAGES). -/
inductive Locale where
  | en | ar | zh | ru | nl
deriving DecidableEq

/-- One per-locale content record of an article (interface Translation). -/
structure Translation where
  title : String
  h2 : String
  h3 : String
  content : String
deriving DecidableEq

/-- The translations map of an article, with one slot per locale of the
fixed set, exactly as the initial form state seeds it. -/
structure Translations where
  en : Translation
  ar : Translation
  zh : Translation
  ru : Translation
  nl : Translation
deriving DecidableEq

def Translations.get (t : Translations) : Locale → Translation
  | .en => t.en
  | .ar => t.ar
  | .zh => t.zh
  | .ru => t.ru
  | .nl => t.nl

def Translations.put (t : Translations) : Locale → Translation → Translations
  | .en, v => { t with en := v }
  | .ar, v => { t with ar := v }
  | .zh, v => { t with zh := v }
  | .ru, v => { t with ru := v }
  | .nl, v => { t with nl := v }

/-- The editable fields of one Translation. -/
inductive TransField where
  | title | h2 | h3 | content
deriving DecidableEq

def Translation.putField (t : Translation) : TransField → String → Translation
  | .title, v => { t with title := v }
  | .h2, v => { t with h2 := v }
  | .h3, v => { t with h3 := v }
  | .content, v => { t with content := v }

/-- The articles editor form state (interface ArticleData).  The gallery
is initialised to the empty list and the fetch path replaces a missing
stored gallery by the empty list, so the optional TypeScript field is
modelled as a plain list. -/
structure ArticleForm where
  image : String
  gallery : List String
  youtubeUrl : String
  slug : String
  category : String
  city : String
  translations : Translations
deriving DecidableEq

/-- The blog editor form state (interface BlogPostData).  lastSyncedAt
is never read from the form by any handler and is overwritten with the
server timestamp on save, so it is not carried here. -/
structure BlogForm where
  author : String
  category : String
  categoryKey : String
  contentHtml : String
  date : String
  id : String
  imageUrl : String
  gallery : List String
  youtubeUrl : String
  slug : String
  summary : String
  title : String
deriving DecidableEq

/-! ## Gallery handlers (identical in both editors) -/

/-- handleGalleryUpload: after all uploads of one action settle, append
the download URLs to the end of the gallery in order. -/
def handleGalleryUpload (gallery : List String) (urls : List String) : List String :=
  gallery ++ urls

/-- removeGalleryImage: keep exactly the entries whose position differs
from the removed index. -/
def removeGalleryImage (gallery : List String) (indexToRemove : Nat) : List String :=
  (gallery.enum.filter (fun p => p.1 != indexToRemove)).map Prod.snd

/-! ## Editor event handlers -/

/-- handleTranslationChange of the articles editor: write the edited
field of the active locale, and when the English title changes while the
slug still equals the slugified previous English title (or is empty),
auto-update the slug from the new title. -/
def handleTranslationChange (activeTab : Locale) (fld : TransField) (value : String)
    (prev : ArticleForm) : ArticleForm :=
  let edited := (prev.translations.get activeTab).putField fld value
  let newState := { prev with translations := prev.translations.put activeTab edited }
  if activeTab = Locale.en ∧ fld = TransField.title then
    if prev.slug = slugify prev.translations.en.title ∨ prev.slug = "" then
      { newState with slug := slugify value }
    else newState
  else newState

/-- handleTitleChange of the blog editor: always write the title; only
while creating a new post, and only while the slug is empty or still
equals the slugified previous title, also write slug and id from the new
title. -/
def handleTitleChange (isNew : Bool) (title : String) (prev : BlogForm) : BlogForm :=
  let newSlug := slugify title
  if isNew ∧ (prev.slug = "" ∨ prev.slug = slugify prev.title) then
    { prev with title := title, slug := newSlug, id := newSlug }
  else
    { prev with title := title }

/-- handleCategoryChange of the blog editor: write the category and
derive categoryKey from it. -/
def handleCategoryChange (category : String) (prev : BlogForm) : BlogForm :=
  { prev with category := category, categoryKey := slugify category }

/-- Every form-mutating event of the articles editor page. -/
inductive ArticleAction where
  | transChange (tab : Locale) (fld : TransField) (value : String)
  | slugEdit (raw : String)
  | categoryEdit (value : String)
  | cityEdit (value : String)
  | youtubeEdit (value : String)
  | imageSet (url : String)
  | galleryAppend (urls : List String)
  | galleryRemove (idx : Nat)

/-- One step of the articles editor: the onChange handlers of the page,
with the slug input storing the slugified raw input. -/
def articleStep (a : ArticleAction) (f : ArticleForm) : ArticleForm :=
  match a with
  | .transChange tab fld v => handleTranslationChange tab fld v f
  | .slugEdit raw => { f with slug := slugify raw }
  | .categoryEdit v => { f with category := v }
  | .cityEdit v => { f with city := v }
  | .youtubeEdit v => { f with youtubeUrl := v }
  | .imageSet u => { f with image := u }
  | .galleryAppend us => { f with gallery := handleGalleryUpload f.gallery us }
  | .galleryRemove i => { f with gallery := removeGalleryImage f.gallery i }

/-- Every form-mutating event of the blog editor page. -/
inductive BlogAction where
  | titleEdit (value : String)
  | slugEdit (raw : String)
  | authorEdit (value : String)
  | dateEdit (value : String)
  | categoryEdit (value : String)
  | summaryEdit (value : String)
  | youtubeEdit (value : String)
  | imageSet (url : String)
  | contentEdit (value : String)
  | galleryAppend (urls : List String)
  | galleryRemove (idx : Nat)

/-- One step of the blog editor: the onChange handlers of the page, with
the slug input storing the slugified raw input into both slug and id. -/
def blogStep (isNew : Bool) (a : BlogAction) (f : BlogForm) : BlogForm :=
  match a with
  | .titleEdit v => handleTitleChange isNew v f
  | .slugEdit raw => { f with slug := slugify raw, id := slugify raw }
  | .authorEdit v => { f with author := v }
  | .dateEdit v => { f with date := v }
  | .categoryEdit v => handleCategoryChange v f
  | .summaryEdit v => { f with summary := v }
  | .youtubeEdit v => { f with youtubeUrl := v }
  | .imageSet u => { f with imageUrl := u }
  | .contentEdit v => { f with contentHtml := v }
  | .galleryAppend us => { f with gallery := handleGalleryUpload f.gallery us }
  | .galleryRemove i => { f with gallery := removeGalleryImage f.gallery i }

/-! ## Model of the Firestore collection used by the save handlers

A document is a function from field names to optional field values, a
collection is an association list from document ids to documents, and
serverTimestamp is an explicit parameter.  setDoc without options
replaces the whole document, setDoc with merge true keeps the stored
fields that the payload does not mention; this is the upsert contract
of the external repository. -/

/-- A Firestore field value as used by these two pages. -/
inductive Value where
  | str : String → Value
  | strList : List String → Value
  | trans : Translations → Value
  | time : Nat → Value
deriving DecidableEq

/-- A stored document: field name to optional value. -/
abbrev Doc := String → Option Value

/-- One collection: association list from document id to document. -/
abbrev Store := List (String × Doc)

def getDocu (st : Store) (k : String) : Option Doc :=
  (st.find? (fun p => p.1 == k)).map Prod.snd

def deleteDocu (st : Store) (k : String) : Store :=
  st.filter (fun p => p.1 != k)

def setDocu (st : Store) (k : String) (d : Doc) : Store :=
  (k, d) :: deleteDocu st k

/-- Field-level merge: payload fields win, absent payload fields keep
the stored value. -/
def mergeDoc (old d : Doc) : Doc :=
  fun fld => match d fld with
  | some v => some v
  | none => old fld

def setDocuMerge (st : Store) (k : String) (d : Doc) : Store :=
  match getDocu st k with
  | some old => setDocu st k (mergeDoc old d)
  | none => setDocu st k d

/-- One write or delete issued against the collection. -/
inductive Op where
  | write (key : String) (d : Doc) (merge : Bool)
  | del (key : String)

def applyOp (st : Store) : Op → Store
  | .write k d false => setDocu st k d
  | .write k d true => setDocuMerge st k d
  | .del k => deleteDocu st k

def applyOps (st : Store) (ops : List Op) : Store :=
  ops.foldl applyOp st

/-- checkSlugUnique of the articles editor: query the collection for the
documents whose slug field equals the candidate; the empty result is
unique, and a non-empty result is unique iff every match is the article
being edited. -/
def checkSlugUnique (st : Store) (slug : String) (selfId : String) : Bool :=
  (st.filter (fun p => p.2 "slug" == some (Value.str slug))).all
    (fun p => p.1 == selfId)

/-- The outcome of a save as surfaced to the operator. -/
inductive SaveResult where
  | validationError
  | conflictError
  | saved
deriving DecidableEq

/-- The article payload (articleData): the form fields plus the update
timestamp. -/
def articleData (f : ArticleForm) (now : Nat) : Doc := fun fld =>
  match fld with
  | "image" => some (.str f.image)
  | "gallery" => some (.strList f.gallery)
  | "youtubeUrl" => some (.str f.youtubeUrl)
  | "slug" => some (.str f.slug)
  | "category" => some (.str f.category)
  | "city" => some (.str f.city)
  | "translations" => some (.trans f.translations)
  | "updatedAt" => some (.time now)
  | _ => none

/-- The payload written for a new article: articleData plus creation
timestamp and the default published status. -/
def newArticleDoc (f : ArticleForm) (now : Nat) : Doc := fun fld =>
  match fld with
  | "createdAt" => some (.time now)
  | "status" => some (.str "published")
  | _ => articleData f now fld

/-- handleSave of the articles editor, as the save outcome plus the list
of repository operations it issues, in order.  An empty slug blocks the
save; a failed uniqueness check blocks it with the conflict alert; a new
article is created at its slug; an edit whose slug differs from the
current document id writes the full document at the new key and then
deletes the old key; otherwise it merge-writes at the existing key. -/
def articlesHandleSave (isNew : Bool) (articleId : String) (f : ArticleForm)
    (st : Store) (now : Nat) : SaveResult × List Op :=
  if f.slug = "" then (.validationError, [])
  else if checkSlugUnique st f.slug articleId = false then (.conflictError, [])
  else if isNew then (.saved, [.write f.slug (newArticleDoc f now) false])
  else if articleId ≠ f.slug then
    (.saved, [.write f.slug (articleData f now) false, .del articleId])
  else
    (.saved, [.write articleId (articleData f now) true])

/-- The blog payload (postData): the form fields, id forced to the
document id (the slug), and the sync timestamp. -/
def blogPostData (f : BlogForm) (now : Nat) : Doc := fun fld =>
  match fld with
  | "author" => some (.str f.author)
  | "category" => some (.str f.category)
  | "categoryKey" => some (.str f.categoryKey)
  | "contentHtml" => some (.str f.contentHtml)
  | "date" => some (.str f.date)
  | "id" => some (.str f.slug)
  | "imageUrl" => some (.str f.imageUrl)
  | "gallery" => some (.strList f.gallery)
  | "youtubeUrl" => some (.str f.youtubeUrl)
  | "slug" => some (.str f.slug)
  | "summary" => some (.str f.summary)
  | "title" => some (.str f.title)
  | "lastSyncedAt" => some (.time now)
  | _ => none

/-- handleSave of the blog editor: an empty slug blocks the save, and
otherwise a single merge-write is issued at the slug, with no
uniqueness check and no delete of the previously loaded document. -/
def blogHandleSave (f : BlogForm) (now : Nat) : SaveResult × List Op :=
  if f.slug = "" then (.validationError, [])
  else (.saved, [.write f.slug (blogPostData f now) true])

/-! ## The blog list view -/

/-- One fetched row of the blog list page (interface BlogPost).  The
stored data may lack any of the displayed fields, which the page guards
with optional chaining, so the fields are optional here. -/
structure BlogPostRow where
  id : String
  title : Option String
  author : Option String
  date : Option String
deriving DecidableEq

/-- String.prototype.toLowerCase on a whole string (ASCII fragment). -/
def jsToLowerStr (s : String) : String :=
  ⟨s.data.map toLowerChar⟩

/-- The filter predicate of the blog list: lowercase the query, test it
as a substring of the lowercased title and author; a missing field
yields the falsy undefined, modelled by getD false. -/
def rowMatches (searchQuery : String) (post : BlogPostRow) : Bool :=
  let query := jsToLowerStr searchQuery
  let titleMatch :=
    (post.title.map (fun t => decide (query.data <:+: (jsToLowerStr t).data))).getD false
  let authorMatch :=
    (post.author.map (fun a => decide (query.data <:+: (jsToLowerStr a).data))).getD false
  titleMatch || authorMatch

/-- filteredPosts of the blog list page. -/
def filteredPosts (posts : List BlogPostRow) (searchQuery : String) : List BlogPostRow :=
  posts.filter (rowMatches searchQuery)

/-! ## The articles list view sort (ArticleListPage) -/

/-- One fetched row of the articles list page (interface Article of the
ArticleListPage): the English title, category and status may be
missing, and createdAt is a Firestore timestamp whose seconds field may
be absent. -/
structure ArticleRow where
  id : String
  title : Option String
  category : Option String
  status : Option String
  createdAtSeconds : Option Nat
deriving DecidableEq

/-- The four sortable columns of the articles list (sortConfig.key). -/
inductive SortKeyKind where
  | title | category | status | date
deriving DecidableEq

/-- The sort direction of sortConfig. -/
inductive SortDir where
  | asc | desc
deriving DecidableEq

/-- The date branch of the comparator: a truthy createdAt.seconds gives
the Date at seconds times 1000, otherwise the Date at epoch 0, and the
comparator uses getTime of that Date, so the compared value is the
derived epoch-millisecond count with a missing timestamp as 0. -/
def dateValue (r : ArticleRow) : Nat :=
  match r.createdAtSeconds with
  | some s => if s ≠ 0 then s * 1000 else 0
  | none => 0

/-- A comparator operand of the articles list: a string column or the
numeric epoch value. -/
inductive SortVal where
  | str : String → SortVal
  | num : Nat → SortVal
deriving DecidableEq

/-- The valueA / valueB extraction of the comparator, per sort key,
with a missing string field defaulted to the empty string. -/
def rawValue (key : SortKeyKind) (r : ArticleRow) : SortVal :=
  match key with
  | .title => .str (r.title.getD "")
  | .category => .str (r.category.getD "")
  | .status => .str (r.status.getD "")
  | .date => .num (dateValue r)

/-- The typeof-string branch of the comparator: string operands are
lowercased before comparison, numbers pass through unchanged. -/
def lowerIfStr : SortVal → SortVal
  | .str s => .str (jsToLowerStr s)
  | .num n => .num n

/-- The less-than test of the comparator.  Both operands always come
from the same sort key and hence the same constructor; the mixed cases
are unreachable. -/
def svLt (a b : SortVal) : Bool :=
  match a, b with
  | .str x, .str y => decide (x < y)
  | .num x, .num y => decide (x < y)
  | _, _ => false

/-- The comparator passed to processedArticles.sort: minus one when the
first value is smaller, one when greater, zero on ties, with the signs
flipped for the descending direction. -/
def articleCompare (key : SortKeyKind) (dir : SortDir) (a b : ArticleRow) : Int :=
  let valueA := lowerIfStr (rawValue key a)
  let valueB := lowerIfStr (rawValue key b)
  if svLt valueA valueB then (match dir with | .asc => -1 | .desc => 1)
  else if svLt valueB valueA then (match dir with | .asc => 1 | .desc => -1)
  else 0

/-- The sort primitive the page calls, Array.prototype.sort, is stable;
its semantic model: insert each element before the first entry it does
not compare strictly after, keeping original order on ties. -/
def insertCmp (cmp : ArticleRow → ArticleRow → Int) (r : ArticleRow) :
    List ArticleRow → List ArticleRow
  | [] => [r]
  | x :: xs => if cmp r x ≤ 0 then r :: x :: xs else x :: insertCmp cmp r xs

/-- processedArticles.sort with the comparator of the page. -/
def sortArticles (key : SortKeyKind) (dir : SortDir) (rs : List ArticleRow) :
    List ArticleRow :=
  rs.foldr (insertCmp (articleCompare key dir)) []

/-! ## Lemmas about the store -/

theorem getDocu_setDocu_self (st : Store) (k : String) (d : Doc) :
    getDocu (setDocu st k d) k = some d := by
  rw [setDocu, getDocu, List.find?_cons]
  simp

theorem find?_deleteDocu (st : Store) (k k' : String) (h : k' ≠ k) :
    (deleteDocu st k).find? (fun p => p.1 == k') = st.find? (fun p => p.1 == k') := by
  induction st with
  | nil => rfl
  | cons a rest ih =>
    by_cases ha : a.1 = k
    · have h2 : (a.1 == k') = false := by simp [ha, Ne.symm h]
      rw [deleteDocu, List.filter_cons_of_neg (by simp [ha]),
        List.find?_cons_of_neg rest (by simp [h2])]
      exact ih
    · rw [deleteDocu, List.filter_cons_of_pos (by simp [ha])]
      by_cases hk : (a.1 == k') = true
      · rw [List.find?_cons_of_pos (p := fun (q : String × Doc) => q.1 == k') _ hk,
          List.find?_cons_of_pos (p := fun (q : String × Doc) => q.1 == k') _ hk]
      · rw [List.find?_cons_of_neg (p := fun (q : String × Doc) => q.1 == k') _ hk,
          List.find?_cons_of_neg (p := fun (q : String × Doc) => q.1 == k') _ hk]
        exact ih

theorem getDocu_deleteDocu_self (st : Store) (k : String) :
    getDocu (deleteDocu st k) k = none := by
  have hn : (deleteDocu st k).find? (fun p => p.1 == k) = none := by
    rw [List.find?_eq_none]
    intro p hp
    have := List.of_mem_filter hp
    simp only [bne_iff_ne, ne_eq] at this
    simp [this]
  rw [getDocu, hn]
  rfl

theorem getDocu_deleteDocu_ne (st : Store) (k k' : String) (h : k' ≠ k) :
    getDocu (deleteDocu st k) k' = getDocu st k' := by
  rw [getDocu, getDocu, find?_deleteDocu st k k' h]

theorem getDocu_setDocu_ne (st : Store) (k k' : String) (d : Doc) (h : k' ≠ k) :
    getDocu (setDocu st k d) k' = getDocu st k' := by
  rw [setDocu, getDocu, List.find?_cons_of_neg _ (by simp [Ne.symm h])]
  exact getDocu_deleteDocu_ne st k k' h

theorem getDocu_setDocuMerge_ne (st : Store) (k k' : String) (d : Doc) (h : k' ≠ k) :
    getDocu (setDocuMerge st k d) k' = getDocu st k' := by
  rw [setDocuMerge]
  cases getDocu st k with
  | none => exact getDocu_setDocu_ne st k k' d h
  | some old => exact getDocu_setDocu_ne st k k' _ h

theorem mergeDoc_frame (old d : Doc) (fld : String) (h : d fld = none) :
    mergeDoc old d fld = old fld := by
  rw [mergeDoc, h]

/-! ## Lemmas about removing a gallery index -/

theorem enumFrom_filter_lt (k : Nat) : ∀ (g : List String) (n : Nat), k < n →
    ((List.enumFrom n g).filter (fun p => p.1 != k)).map Prod.snd = g := by
  intro g
  induction g with
  | nil => intro n _; rfl
  | cons x xs ih =>
    intro n hk
    rw [List.enumFrom, List.filter_cons_of_pos (by simp; omega), List.map_cons,
      ih (n + 1) (by omega)]

theorem enumFrom_filter_ge (k : Nat) : ∀ (g : List String) (n : Nat), n ≤ k →
    ((List.enumFrom n g).filter (fun p => p.1 != k)).map Prod.snd =
      g.take (k - n) ++ g.drop (k - n + 1) := by
  intro g
  induction g with
  | nil => intro n _; simp
  | cons x xs ih =>
    intro n hk
    by_cases he : n = k
    · rw [List.enumFrom, List.filter_cons_of_neg (by simp [he]),
        enumFrom_filter_lt k xs (n + 1) (by omega)]
      have : k - n = 0 := by omega
      simp [this]
    · have hk1 : n + 1 ≤ k := by omega
      rw [List.enumFrom, List.filter_cons_of_pos (by simp [he]), List.map_cons,
        ih (n + 1) hk1]
      have e1 : k - n = (k - (n + 1)) + 1 := by omega
      rw [e1]
      simp [List.take_succ_cons, List.drop_succ_cons]

/-- removeGalleryImage deletes exactly the indexed entry. -/
theorem removeGalleryImage_eq (g : List String) (i : Nat) :
    removeGalleryImage g i = g.take i ++ g.drop (i + 1) := by
  have := enumFrom_filter_ge i g 0 (Nat.zero_le i)
  rw [removeGalleryImage, List.enum]
  simpa using this

/-! ## Concrete fixtures used by witnesses and counterexamples -/

def emptyTranslation : Translation :=
  ⟨"", "", "", ""⟩

def emptyTranslations : Translations :=
  ⟨emptyTranslation, emptyTranslation, emptyTranslation, emptyTranslation,
    emptyTranslation⟩

def sampleArticleForm : ArticleForm :=
  { image := "", gallery := [], youtubeUrl := "", slug := "new-key",
    category := "", city := "", translations := emptyTranslations }

def blankArticleForm : ArticleForm :=
  { sampleArticleForm with slug := "" }

def sampleBlogForm : BlogForm :=
  { author := "", category := "", categoryKey := "", contentHtml := "",
    date := "", id := "update", imageUrl := "", gallery := [],
    youtubeUrl := "", slug := "update", summary := "", title := "" }

/-- A blog form whose slug is still the slugified title. -/
def titledBlogForm : BlogForm :=
  { sampleBlogForm with title := "a", slug := "a", id := "a" }

/-- A store whose only document, at key other, holds the slug of
sampleBlogForm, so that slug is taken by a different record. -/
def conflictStore : Store :=
  [("other", blogPostData sampleBlogForm 0)]

/-- A previously stored article document carrying a field that the save
payload never mentions. -/
def staleDoc : Doc :=
  fun fld => if fld = "status" then some (.str "draft") else none

def mergeStore : Store :=
  [("new-key", staleDoc)]

/-! ## The claims -/

/-- C3 counterexample: slugify keeps a leading hyphen, refuting the part
of the claim that forbids leading hyphens: slugify of the string
hyphen-a is that same string, whose first character is a hyphen. -/
theorem C3_counterexample :
    slugify "-a" = "-a" ∧ (slugify "-a").data.head? = some '-' := by
  exact ⟨by decide, by decide⟩

/-- C3 (amended): slugify is idempotent and its result contains only
lowercase word characters and hyphens with no two consecutive hyphens;
a leading or trailing hyphen may remain when the input itself carries
one. -/
theorem C3_slugify_idem_charset (s : String) :
    slugify (slugify s) = slugify s ∧
    (∀ c ∈ (slugify s).data, isSlugChar c = true) ∧
    noDoubleHyphen (slugify s).data = true :=
  ⟨slugify_idem s, fun c hc => slugifyL_chars s.data c hc, slugifyL_noDouble s.data⟩

/-- C3 witness: the amended claim at a concrete input, with the
membership hypothesis discharged on a concrete character. -/
theorem C3_witness :
    slugify (slugify "Hello World") = slugify "Hello World" ∧
      isSlugChar 'h' = true :=
  ⟨(C3_slugify_idem_charset "Hello World").1,
    (C3_slugify_idem_charset "Hello World").2.1 'h' (by decide)⟩

/-- C1 counterexample: in the blog editor a rename save (record loaded
from old-key, slug edited to update) leaves the old document in place:
after the save both keys hold a document, refuting the claim that no
document exists at the old key. -/
theorem C1_counterexample :
    (blogHandleSave sampleBlogForm 0).1 = .saved ∧
    (getDocu (applyOps [("old-key", blogPostData sampleBlogForm 0)]
      (blogHandleSave sampleBlogForm 0).2) "old-key").isSome = true ∧
    (getDocu (applyOps [("old-key", blogPostData sampleBlogForm 0)]
      (blogHandleSave sampleBlogForm 0).2) "update").isSome = true := by
  exact ⟨by decide, by decide, by decide⟩

/-- C1 (amended): in the articles editor a rename save issues the full
write at the new key followed by the delete of the old key, and on
success a document exists at the new key and none at the old key; in
the blog editor a rename save issues only a merge write at the new slug
and the document at the old key is left untouched. -/
theorem C1_rename_create_then_delete (f : ArticleForm) (st : Store) (now : Nat)
    (articleId : String) (hne : articleId ≠ f.slug) (hs : f.slug ≠ "")
    (hu : checkSlugUnique st f.slug articleId = true) :
    articlesHandleSave false articleId f st now =
      (.saved, [.write f.slug (articleData f now) false, .del articleId]) ∧
    getDocu (applyOps st [.write f.slug (articleData f now) false, .del articleId])
      f.slug = some (articleData f now) ∧
    getDocu (applyOps st [.write f.slug (articleData f now) false, .del articleId])
      articleId = none ∧
    (∀ (g : BlogForm) (st2 : Store) (oldKey : String), oldKey ≠ g.slug →
      g.slug ≠ "" →
      blogHandleSave g now = (.saved, [.write g.slug (blogPostData g now) true]) ∧
      getDocu (applyOps st2 [.write g.slug (blogPostData g now) true]) oldKey =
        getDocu st2 oldKey) := by
  refine ⟨?_, ?_, ?_, ?_⟩
  · rw [articlesHandleSave, if_neg hs, if_neg (by simp [hu]), if_neg (by simp),
      if_pos hne]
  · show getDocu (deleteDocu (setDocu st f.slug (articleData f now)) articleId)
      f.slug = some (articleData f now)
    rw [getDocu_deleteDocu_ne _ _ _ (Ne.symm hne), getDocu_setDocu_self]
  · show getDocu (deleteDocu (setDocu st f.slug (articleData f now)) articleId)
      articleId = none
    exact getDocu_deleteDocu_self _ _
  · intro g st2 oldKey hok hg
    refine ⟨?_, ?_⟩
    · rw [blogHandleSave, if_neg hg]
    · show getDocu (setDocuMerge st2 g.slug (blogPostData g now)) oldKey =
        getDocu st2 oldKey
      exact getDocu_setDocuMerge_ne _ _ _ _ hok

/-- C1 witness: the amended claim applied to a concrete rename of an
article from old-key to new-key over the empty collection. -/
theorem C1_witness :
    articlesHandleSave false "old-key" sampleArticleForm [] 0 =
      (.saved, [.write sampleArticleForm.slug (articleData sampleArticleForm 0) false,
        .del "old-key"]) :=
  (C1_rename_create_then_delete sampleArticleForm [] 0 "old-key" (by decide)
    (by decide) (by decide)).1

/-- C2 counterexample: the blog editor performs no uniqueness check: the
slug of the form is already held by the document at key other, yet the
save proceeds and issues a write, creating a second document with the
same slug. -/
theorem C2_counterexample :
    checkSlugUnique conflictStore sampleBlogForm.slug "mine" = false ∧
    (blogHandleSave sampleBlogForm 0).1 = .saved ∧
    (blogHandleSave sampleBlogForm 0).2.length = 1 ∧
    (getDocu (applyOps conflictStore (blogHandleSave sampleBlogForm 0).2)
      sampleBlogForm.slug).isSome = true := by
  exact ⟨by decide, by decide, by decide, by decide⟩

/-- C2 (amended): the articles editor checks uniqueness before every
save and a failed check aborts with the conflict alert and no write,
for new and existing records alike; the blog editor never consults the
collection and always issues its single merge write once the slug is
non-empty. -/
theorem C2_conflict_blocks (st : Store) (articleId : String) (f : ArticleForm)
    (now : Nat) (hs : f.slug ≠ "")
    (hc : checkSlugUnique st f.slug articleId = false) :
    (∀ isNew, articlesHandleSave isNew articleId f st now = (.conflictError, [])) ∧
    (∀ (g : BlogForm), g.slug ≠ "" →
      (blogHandleSave g now).1 = .saved ∧ (blogHandleSave g now).2.length = 1) := by
  refine ⟨?_, ?_⟩
  · intro isNew
    rw [articlesHandleSave, if_neg hs, if_pos hc]
  · intro g hg
    rw [blogHandleSave, if_neg hg]
    exact ⟨rfl, rfl⟩

/-- C2 witness: the amended claim at the concrete conflicting store. -/
theorem C2_witness :
    articlesHandleSave false "mine" { sampleArticleForm with slug := "update" }
      conflictStore 0 = (.conflictError, []) :=
  (C2_conflict_blocks conflictStore "mine"
    { sampleArticleForm with slug := "update" } 0 (by decide) (by decide)).1 false

/-- C4 counterexample: in the blog editor, editing the title of an
existing record (isNew false) whose slug still equals the slugified
previous title leaves the slug unchanged, while the claim requires it
to become the slugified new title. -/
theorem C4_counterexample :
    titledBlogForm.slug = slugify titledBlogForm.title ∧
    (handleTitleChange false "b" titledBlogForm).slug = "a" ∧
    slugify "b" = "b" ∧ ("a" : String) ≠ "b" := by
  exact ⟨by decide, by decide, by decide, by decide⟩

/-- C4 (amended): in the articles editor a primary-locale title edit
follows the divergence rule exactly as claimed, evaluated on the
pre-edit state; in the blog editor the same rule is additionally gated
on the record being new, and a title edit of an existing record never
changes the slug. -/
theorem C4_divergence_rule (value : String) (prev : ArticleForm) (g : BlogForm)
    (isNew : Bool) :
    ((prev.slug = slugify prev.translations.en.title ∨ prev.slug = "") →
      (handleTranslationChange .en .title value prev).slug = slugify value) ∧
    (¬(prev.slug = slugify prev.translations.en.title ∨ prev.slug = "") →
      (handleTranslationChange .en .title value prev).slug = prev.slug) ∧
    ((isNew = true ∧ (g.slug = "" ∨ g.slug = slugify g.title)) →
      (handleTitleChange isNew value g).slug = slugify value) ∧
    (¬(isNew = true ∧ (g.slug = "" ∨ g.slug = slugify g.title)) →
      (handleTitleChange isNew value g).slug = g.slug) := by
  refine ⟨?_, ?_, ?_, ?_⟩
  · intro h
    simp [handleTranslationChange, h]
  · intro h
    simp [handleTranslationChange, h]
  · intro h
    simp only [handleTitleChange]
    rw [if_pos h]
  · intro h
    simp only [handleTitleChange]
    rw [if_neg h]

/-- C4 witness: the amended claim at a concrete pre-edit state: an empty
slug auto-fills from the new title in the articles editor, and a new
blog record does the same. -/
theorem C4_witness :
    (handleTranslationChange .en .title "New Title" blankArticleForm).slug =
      slugify "New Title" ∧
    (handleTitleChange true "New Title" { sampleBlogForm with slug := "" }).slug =
      slugify "New Title" :=
  ⟨(C4_divergence_rule "New Title" blankArticleForm sampleBlogForm true).1
      (Or.inr (by decide)),
    (C4_divergence_rule "New Title" blankArticleForm
      { sampleBlogForm with slug := "" } true).2.2.1 ⟨rfl, Or.inl (by decide)⟩⟩

/-- C5 counterexample: the first save of a new blog record writes a
document with no creation timestamp and no status field at all,
refuting the claim for the blog editor. -/
theorem C5_counterexample :
    (blogHandleSave sampleBlogForm 0).1 = .saved ∧
    (getDocu (applyOps [] (blogHandleSave sampleBlogForm 0).2)
      sampleBlogForm.slug).map (fun d => d "createdAt") = some none ∧
    (getDocu (applyOps [] (blogHandleSave sampleBlogForm 0).2)
      sampleBlogForm.slug).map (fun d => d "status") = some none := by
  exact ⟨by decide, by decide, by decide⟩

/-- C5 (amended): the first successful save of a new article writes a
document carrying the creation timestamp and status published; the
first save of a new blog post writes only the sync timestamp, with no
creation timestamp and no status field. -/
theorem C5_new_record_fields (f : ArticleForm) (st : Store) (now : Nat)
    (articleId : String) (hs : f.slug ≠ "")
    (hu : checkSlugUnique st f.slug articleId = true) :
    articlesHandleSave true articleId f st now =
      (.saved, [.write f.slug (newArticleDoc f now) false]) ∧
    getDocu (applyOps st [.write f.slug (newArticleDoc f now) false]) f.slug =
      some (newArticleDoc f now) ∧
    newArticleDoc f now "createdAt" = some (.time now) ∧
    newArticleDoc f now "status" = some (.str "published") ∧
    (∀ (g : BlogForm) (st2 : Store), g.slug ≠ "" → getDocu st2 g.slug = none →
      getDocu (applyOps st2 (blogHandleSave g now).2) g.slug =
        some (blogPostData g now) ∧
      blogPostData g now "lastSyncedAt" = some (.time now) ∧
      blogPostData g now "createdAt" = none ∧
      blogPostData g now "status" = none) := by
  refine ⟨?_, ?_, rfl, rfl, ?_⟩
  · rw [articlesHandleSave, if_neg hs, if_neg (by simp [hu]), if_pos rfl]
  · show getDocu (setDocu st f.slug (newArticleDoc f now)) f.slug =
      some (newArticleDoc f now)
    exact getDocu_setDocu_self _ _ _
  · intro g st2 hg hnone
    refine ⟨?_, rfl, rfl, rfl⟩
    rw [blogHandleSave, if_neg hg]
    show getDocu (setDocuMerge st2 g.slug (blogPostData g now)) g.slug =
      some (blogPostData g now)
    rw [setDocuMerge, hnone]
    exact getDocu_setDocu_self _ _ _

/-- C5 witness: the amended claim at a concrete new article saved over
the empty collection. -/
theorem C5_witness :
    articlesHandleSave true "new" sampleArticleForm [] 0 =
      (.saved, [.write sampleArticleForm.slug (newArticleDoc sampleArticleForm 0)
        false]) :=
  (C5_new_record_fields sampleArticleForm [] 0 "new" (by decide) (by decide)).1

/-- C6: a save of an existing record whose key equals its slug is a
merge write: the stored document becomes the field-level merge of the
old document with the payload, and every field the payload does not
supply keeps its stored value; the blog save at an existing key behaves
the same way. -/
theorem C6_merge_preserves (f : ArticleForm) (st : Store) (now : Nat) (d0 : Doc)
    (hs : f.slug ≠ "") (hu : checkSlugUnique st f.slug f.slug = true)
    (hdoc : getDocu st f.slug = some d0) :
    articlesHandleSave false f.slug f st now =
      (.saved, [.write f.slug (articleData f now) true]) ∧
    getDocu (applyOps st [.write f.slug (articleData f now) true]) f.slug =
      some (mergeDoc d0 (articleData f now)) ∧
    (∀ fld, articleData f now fld = none →
      mergeDoc d0 (articleData f now) fld = d0 fld) ∧
    (∀ (g : BlogForm) (st2 : Store) (e0 : Doc), g.slug ≠ "" →
      getDocu st2 g.slug = some e0 →
      getDocu (applyOps st2 (blogHandleSave g now).2) g.slug =
        some (mergeDoc e0 (blogPostData g now)) ∧
      ∀ fld, blogPostData g now fld = none →
        mergeDoc e0 (blogPostData g now) fld = e0 fld) := by
  refine ⟨?_, ?_, ?_, ?_⟩
  · rw [articlesHandleSave, if_neg hs, if_neg (by simp [hu]), if_neg (by simp),
      if_neg (by simp)]
  · show getDocu (setDocuMerge st f.slug (articleData f now)) f.slug =
      some (mergeDoc d0 (articleData f now))
    rw [setDocuMerge, hdoc]
    exact getDocu_setDocu_self _ _ _
  · intro fld h
    exact mergeDoc_frame d0 _ fld h
  · intro g st2 e0 hg he
    refine ⟨?_, fun fld h => mergeDoc_frame e0 _ fld h⟩
    rw [blogHandleSave, if_neg hg]
    show getDocu (setDocuMerge st2 g.slug (blogPostData g now)) g.slug =
      some (mergeDoc e0 (blogPostData g now))
    rw [setDocuMerge, he]
    exact getDocu_setDocu_self _ _ _

/-- C6 witness: the stale status field of the stored document survives
a concrete merge save that does not supply it. -/
theorem C6_witness :
    getDocu (applyOps mergeStore
      [.write sampleArticleForm.slug (articleData sampleArticleForm 0) true])
      sampleArticleForm.slug =
      some (mergeDoc staleDoc (articleData sampleArticleForm 0)) ∧
    mergeDoc staleDoc (articleData sampleArticleForm 0) "status" =
      some (.str "draft") :=
  ⟨(C6_merge_preserves sampleArticleForm mergeStore 0 staleDoc (by decide)
      (by decide) rfl).2.1,
    ((C6_merge_preserves sampleArticleForm mergeStore 0 staleDoc (by decide)
      (by decide) rfl).2.2.1 "status" rfl).trans rfl⟩

/-! ## Helper lemmas for the list-view filter -/

theorem rowMatches_iff (q : String) (p : BlogPostRow) :
    rowMatches q p = true ↔
      ((∃ t, p.title = some t ∧ (jsToLowerStr q).data <:+: (jsToLowerStr t).data) ∨
       (∃ a, p.author = some a ∧ (jsToLowerStr q).data <:+: (jsToLowerStr a).data)) := by
  obtain ⟨i, t, a, dt⟩ := p
  cases t <;> cases a <;> simp [rowMatches]

theorem jsToLowerStr_empty : (jsToLowerStr "").data = [] := rfl

theorem rowMatches_empty (p : BlogPostRow) :
    rowMatches "" p = (p.title.isSome || p.author.isSome) := by
  obtain ⟨i, t, a, dt⟩ := p
  cases t <;> cases a <;> simp [rowMatches, jsToLowerStr_empty, List.nil_infix]

/-- C7 counterexample: a record whose configured fields are both missing
is dropped even by the empty query, refuting the part of the claim that
the empty query returns all records. -/
theorem C7_counterexample :
    filteredPosts [BlogPostRow.mk "p" none none none] "" = [] := by
  decide

/-- C7 (amended): the filter keeps a record iff the lowercased query is
a substring of the lowercased title or of the lowercased author of that
record (so a record missing a field cannot match on it), and the empty
query keeps, in order, exactly the records with at least one of the two
fields present. -/
theorem C7_filter_spec (posts : List BlogPostRow) (q : String) (p : BlogPostRow) :
    (p ∈ filteredPosts posts q ↔ p ∈ posts ∧
      ((∃ t, p.title = some t ∧ (jsToLowerStr q).data <:+: (jsToLowerStr t).data) ∨
       (∃ a, p.author = some a ∧ (jsToLowerStr q).data <:+: (jsToLowerStr a).data))) ∧
    filteredPosts posts "" = posts.filter (fun r => r.title.isSome || r.author.isSome) := by
  constructor
  · rw [filteredPosts, List.mem_filter, rowMatches_iff]
  · rw [filteredPosts]
    exact List.filter_congr (fun r _ => rowMatches_empty r)

/-- C7 witness: the amended claim applied to a concrete one-record list
with the empty query. -/
theorem C7_witness :
    filteredPosts [BlogPostRow.mk "p" (some "Villa tour") (some "joe") none] "" =
      List.filter (fun r => r.title.isSome || r.author.isSome)
        [BlogPostRow.mk "p" (some "Villa tour") (some "joe") none] :=
  (C7_filter_spec [BlogPostRow.mk "p" (some "Villa tour") (some "joe") none] ""
    (BlogPostRow.mk "p" (some "Villa tour") (some "joe") none)).2

/-- C8: under the date key the articles list comparator compares two
records by their derived epoch-millisecond values, a record with no
timestamp compares as epoch 0, and sorting records created 2024-01-01
(seconds 1704067200), missing and 2023-06-15 (seconds 1686787200) by
date ascending yields missing, 2023-06-15, 2024-01-01. -/
theorem C8_date_sort_epoch :
    (∀ r : ArticleRow, r.createdAtSeconds = none → dateValue r = 0) ∧
    (∀ (r : ArticleRow) (s : Nat), r.createdAtSeconds = some s → s ≠ 0 →
      dateValue r = s * 1000) ∧
    (∀ a b : ArticleRow, articleCompare .date .asc a b =
      (if dateValue a < dateValue b then -1
        else if dateValue b < dateValue a then 1 else 0)) ∧
    sortArticles .date .asc
        [ArticleRow.mk "2024-01-01" none none none (some 1704067200),
          ArticleRow.mk "missing" none none none none,
          ArticleRow.mk "2023-06-15" none none none (some 1686787200)] =
      [ArticleRow.mk "missing" none none none none,
        ArticleRow.mk "2023-06-15" none none none (some 1686787200),
        ArticleRow.mk "2024-01-01" none none none (some 1704067200)] := by
  refine ⟨?_, ?_, ?_, by decide⟩
  · intro r h
    simp [dateValue, h]
  · intro r s h hs
    simp [dateValue, h, hs]
  · intro a b
    simp only [articleCompare, rawValue, lowerIfStr, svLt, decide_eq_true_eq]

/-- C8 witness: a concrete record with no timestamp compares as epoch 0
and one created at seconds 1704067200 compares as 1704067200000. -/
theorem C8_witness :
    dateValue (ArticleRow.mk "missing" none none none none) = 0 ∧
    dateValue (ArticleRow.mk "a" none none none (some 1704067200)) =
      1704067200000 :=
  ⟨C8_date_sort_epoch.1 (ArticleRow.mk "missing" none none none none) rfl,
    C8_date_sort_epoch.2.1 (ArticleRow.mk "a" none none none (some 1704067200))
      1704067200 rfl (by decide)⟩

/-- C9: appending to the gallery preserves the existing entries at their
indices and places the incoming URLs after them in order; removing an
index keeps the prefix before it and shifts the suffix after it left;
an out-of-range index is a no-op; and the concrete example of the claim
holds. -/
theorem C9_gallery_ops (g us : List String) (i j : Nat) :
    (j < g.length → (handleGalleryUpload g us)[j]? = g[j]?) ∧
    (∀ m, m < us.length → (handleGalleryUpload g us)[g.length + m]? = us[m]?) ∧
    (g.length ≤ i → removeGalleryImage g i = g) ∧
    (i < g.length → removeGalleryImage g i = g.take i ++ g.drop (i + 1)) ∧
    removeGalleryImage (handleGalleryUpload [] ["a.png", "b.png"]) 0 = ["b.png"] := by
  refine ⟨?_, ?_, ?_, ?_, by decide⟩
  · intro h
    rw [handleGalleryUpload]
    exact List.getElem?_append_left h
  · intro m hm
    rw [handleGalleryUpload, List.getElem?_append_right (Nat.le_add_right _ _),
      Nat.add_sub_cancel_left]
  · intro h
    rw [removeGalleryImage_eq, List.take_of_length_le h,
      List.drop_eq_nil_of_le (by omega), List.append_nil]
  · intro h
    exact removeGalleryImage_eq g i

/-- C9 witness: removing an out-of-range index is a no-op, and the first
existing entry survives an append, at concrete inputs. -/
theorem C9_witness :
    removeGalleryImage ["x", "y"] 5 = ["x", "y"] ∧
    (handleGalleryUpload ["x"] ["y"])[0]? = some "x" :=
  ⟨(C9_gallery_ops ["x", "y"] [] 5 0).2.2.1 (by decide),
    ((C9_gallery_ops ["x"] ["y"] 0 0).1 (by decide)).trans rfl⟩

/-- C10: both slug inputs store the slugified raw text, both title
handlers only ever store slugified titles, and no other editor action
touches the slug, so the invariant that the slug is a fixed point of
slugify (with the empty initial slug as a fixed point) is established
by every slug-writing edit and preserved by every edit of either
editor. -/
theorem C10_slug_invariant (a : ArticleAction) (b : BlogAction) (isNew : Bool)
    (f : ArticleForm) (g : BlogForm) (raw : String) :
    (slugify f.slug = f.slug →
      slugify (articleStep a f).slug = (articleStep a f).slug) ∧
    (slugify g.slug = g.slug →
      slugify (blogStep isNew b g).slug = (blogStep isNew b g).slug) ∧
    (articleStep (.slugEdit raw) f).slug = slugify raw ∧
    (blogStep isNew (.slugEdit raw) g).slug = slugify raw ∧
    (blogStep isNew (.slugEdit raw) g).id = slugify raw ∧
    slugify "" = "" := by
  refine ⟨?_, ?_, rfl, rfl, rfl, by decide⟩
  · intro h
    cases a with
    | transChange tab fld v =>
      show slugify (handleTranslationChange tab fld v f).slug =
        (handleTranslationChange tab fld v f).slug
      simp only [handleTranslationChange]
      by_cases h1 : tab = Locale.en ∧ fld = TransField.title
      · rw [if_pos h1]
        by_cases h2 : f.slug = slugify f.translations.en.title ∨ f.slug = ""
        · rw [if_pos h2]
          exact slugify_idem v
        · rw [if_neg h2]
          exact h
      · rw [if_neg h1]
        exact h
    | slugEdit r => exact slugify_idem r
    | categoryEdit v => exact h
    | cityEdit v => exact h
    | youtubeEdit v => exact h
    | imageSet u => exact h
    | galleryAppend us => exact h
    | galleryRemove i2 => exact h
  · intro h
    cases b with
    | titleEdit v =>
      show slugify (handleTitleChange isNew v g).slug =
        (handleTitleChange isNew v g).slug
      simp only [handleTitleChange]
      by_cases h1 : isNew = true ∧ (g.slug = "" ∨ g.slug = slugify g.title)
      · rw [if_pos h1]
        exact slugify_idem v
      · rw [if_neg h1]
        exact h
    | slugEdit r => exact slugify_idem r
    | authorEdit v => exact h
    | dateEdit v => exact h
    | categoryEdit v => exact h
    | summaryEdit v => exact h
    | youtubeEdit v => exact h
    | imageSet u => exact h
    | contentEdit v => exact h
    | galleryAppend us => exact h
    | galleryRemove i2 => exact h

/-- C10 witness: the invariant is preserved across a concrete category
edit of a form whose slug is in slugify normal form. -/
theorem C10_witness :
    slugify (articleStep (.categoryEdit "Laws") sampleArticleForm).slug =
      (articleStep (.categoryEdit "Laws") sampleArticleForm).slug :=
  (C10_slug_invariant (.categoryEdit "Laws") (.titleEdit "t") true
    sampleArticleForm sampleBlogForm "r").1 (by decide)

end Cms
